import Mathlib

/-!
Shallow embedding of the pricelist extraction and matching pipeline
(ai_matcher.py, gemini_parser.py, vendors/base_parser.py, vendors/kruse_sons.py,
vendors/rw_zant.py, pdf_processor.py) together with theorems checking the
natural-language specification against it.

Conventions of the embedding:
* Python strings are Lean `String`s; character classes (`\d`, `\s`, `\w`,
  `isdigit`, `isalpha`, `upper`) are modelled at ASCII level, which covers all
  identifiers, costs and sentinels this program manipulates.
* Regular-expression uses are translated one by one into dedicated matching
  functions implementing the leftmost / greedy / backtracking semantics of the
  concrete pattern, including the CPython detail that `$` also matches just
  before a single trailing newline.
* Python `float` costs are represented exactly in integer cents: every numeric
  literal the cost regexes can produce has at most two decimal places and at
  most seven significant digits, a range on which CPython float parsing,
  comparison against the two-decimal bounds, and `%.2f` formatting are exact.
* Exceptions are `Except String`; values of `json.loads` are a `JValue` tree
  (numbers as exact rationals; the text of exception messages is abstracted).
* The single `generate_content` network call a match may perform is an
  environment parameter: `api_key_set` models the `GEMINI_API_KEY` check and
  `ai_response` the text (or transport error) the model returns.
-/

namespace Pricelist

/-- Python ASCII whitespace, as stripped by str.strip and matched by the regex
class backslash-s. (Non-ASCII whitespace is not modelled.) -/
def isPySpace (c : Char) : Bool :=
  c = ' ' || c = '\t' || c = '\n' || c = '\r' || c = '\x0b' || c = '\x0c'

/-- Characters of the ASCII regex word class, used for the word boundary. -/
def isWordChar (c : Char) : Bool := c.isAlphanum || c = '_'

/-- Uppercase A-Z test, the regex class [A-Z]. -/
def isUpperAZ (c : Char) : Bool := 'A' ≤ c && c ≤ 'Z'

/-- Python str.strip on a character list. -/
def stripList (cs : List Char) : List Char :=
  ((cs.dropWhile isPySpace).reverse.dropWhile isPySpace).reverse

/-- Python str.strip. -/
def pyStrip (s : String) : String := String.mk (stripList s.data)

/-- Python str.upper (ASCII). -/
def pyUpper (s : String) : String := String.mk (s.data.map Char.toUpper)

/-- Python str.startswith, via the underlying character lists. -/
def startsWithStr (s pre : String) : Bool := pre.data.isPrefixOf s.data

/-- Python s.lstrip("0") followed by the `or "0"` default. -/
def lstripZeros (cs : List Char) : List Char :=
  match cs.dropWhile (fun c => c = '0') with
  | [] => ['0']
  | l => l

/-- Numeric value of a list of ASCII digits. -/
def digitsToNat (ds : List Char) : Nat :=
  ds.foldl (fun a c => 10 * a + (c.toNat - 48)) 0

/-- Does `tl` match a character-class star followed by an end anchor?  CPython
`$` (without MULTILINE) matches at the end of the string or just before one
final newline. -/
def starThenEnd (ok : Char → Bool) (tl : List Char) : Bool :=
  tl.all ok || (tl ≠ [] && tl.dropLast.all ok && tl.getLastD ' ' = '\n')

/-- Does `tl` match a bare end anchor (empty or a single final newline)? -/
def atEndDollar (tl : List Char) : Bool := tl = [] || tl = ['\n']

namespace AiMatcher

/-- re.match of the special family pattern: literal K002, three digits
(captured), hyphen plus two digits (captured), then any run in the class
hyphen or A-Z up to the end anchor. Returns the two capture groups. -/
def k002Match (cs : List Char) : Option (List Char × List Char) :=
  match cs with
  | 'K' :: '0' :: '0' :: '2' :: d1 :: d2 :: d3 :: '-' :: e1 :: e2 :: tl =>
    if d1.isDigit && d2.isDigit && d3.isDigit && e1.isDigit && e2.isDigit
        && starThenEnd (fun c => isUpperAZ c || c = '-') tl then
      some ([d1, d2, d3], ['-', e1, e2])
    else none
  | _ => none

/-- Scanner for the anchored pattern: lazy dot-star, a captured digit run, a
captured hyphen plus exactly two digits, then optional capital letters to the
end anchor.  The lazy prefix tries start positions left to right and cannot
cross a newline; at a given digit run only the full run can be followed by the
required hyphen, and start positions inside a run see the same tail, so the
scan moves run by run.  Fuel is the length of the list. -/
def reMatch2Aux : Nat → List Char → Option (List Char × List Char)
  | 0, _ => none
  | _, [] => none
  | fuel + 1, c :: rest =>
    if c.isDigit then
      let digits := (c :: rest).takeWhile Char.isDigit
      let after := (c :: rest).dropWhile Char.isDigit
      match after with
      | '-' :: a :: b :: tl =>
        if a.isDigit && b.isDigit && starThenEnd isUpperAZ tl then
          some (digits, ['-', a, b])
        else reMatch2Aux fuel after
      | _ => reMatch2Aux fuel after
    else if c = '\n' then none
    else reMatch2Aux fuel rest

/-- re.match of: lazy dot-star then a captured digit run.  Matches the first
maximal digit run, provided no newline precedes it (the lazy dot-star cannot
cross one). -/
def reMatch3 (cs : List Char) : Option (List Char) :=
  let pre := cs.takeWhile (fun c => !c.isDigit)
  let rest := cs.dropWhile (fun c => !c.isDigit)
  if pre.all (fun c => c ≠ '\n') then
    match rest with
    | [] => none
    | _ => some (rest.takeWhile Char.isDigit)
  else none

/-- re.findall of a digit-run pattern: all maximal digit runs, left to right.
Fuel is the length of the list. -/
def digitRunsAux : Nat → List Char → List (List Char)
  | 0, _ => []
  | _, [] => []
  | fuel + 1, c :: rest =>
    if c.isDigit then
      (c :: rest).takeWhile Char.isDigit ::
        digitRunsAux fuel ((c :: rest).dropWhile Char.isDigit)
    else digitRunsAux fuel rest

/-- Python max(runs, key=len): the first run of maximal length. -/
def longestDigitRun (cs : List Char) : Option (List Char) :=
  match digitRunsAux cs.length cs with
  | [] => none
  | r :: rs => some (rs.foldl (fun best x => if x.length > best.length then x else best) r)

/-- ai_matcher.normalize_product_id. -/
def normalize_product_id (product_id : String) : String :=
  if product_id = "" || product_id = "N/A" then ""
  else
    let cleaned := pyUpper (pyStrip product_id)
    match k002Match cleaned.data with
    | some (core, suf) => String.mk (lstripZeros core) ++ String.mk suf
    | none =>
      match reMatch2Aux cleaned.data.length cleaned.data with
      | some (core, suf) => String.mk (lstripZeros core) ++ String.mk suf
      | none =>
        match reMatch3 cleaned.data with
        | some run => String.mk (lstripZeros run)
        | none =>
          match longestDigitRun cleaned.data with
          | some run => String.mk (lstripZeros run)
          | none => cleaned

end AiMatcher

/-- A value returned by json.loads: the Python object tree a JSON text decodes
to.  Numbers are exact rationals (the float rounding of CPython is not
observable in any theorem below). -/
inductive JValue where
  | null : JValue
  | bool : Bool → JValue
  | num : Rat → JValue
  | str : String → JValue
  | arr : List JValue → JValue
  | obj : List (String × JValue) → JValue

/-- JSON whitespace accepted between tokens by json.loads. -/
def isJsonWs (c : Char) : Bool := c = ' ' || c = '\t' || c = '\n' || c = '\r'

/-- Hexadecimal digit value, for string escapes. -/
def hexVal (c : Char) : Option Nat :=
  let u := c.toNat
  if 48 ≤ u && u ≤ 57 then some (u - 48)
  else if 97 ≤ u && u ≤ 102 then some (u - 87)
  else if 65 ≤ u && u ≤ 70 then some (u - 55)
  else none

/-- Body of a JSON string after the opening quote: literal characters (raw
control characters are rejected, as in strict json.loads) and the standard
escapes.  Returns the decoded string and the characters after the closing
quote. -/
def parseJStringAux : Nat → List Char → List Char → Option (String × List Char)
  | 0, _, _ => none
  | _, acc, '"' :: rest => some (String.mk acc.reverse, rest)
  | fuel + 1, acc, '\\' :: e :: rest =>
    match e with
    | '"' => parseJStringAux fuel ('"' :: acc) rest
    | '\\' => parseJStringAux fuel ('\\' :: acc) rest
    | '/' => parseJStringAux fuel ('/' :: acc) rest
    | 'b' => parseJStringAux fuel ('\x08' :: acc) rest
    | 'f' => parseJStringAux fuel ('\x0c' :: acc) rest
    | 'n' => parseJStringAux fuel ('\n' :: acc) rest
    | 'r' => parseJStringAux fuel ('\r' :: acc) rest
    | 't' => parseJStringAux fuel ('\t' :: acc) rest
    | 'u' =>
      match rest with
      | h1 :: h2 :: h3 :: h4 :: rest2 =>
        match hexVal h1, hexVal h2, hexVal h3, hexVal h4 with
        | some a, some b, some c, some d =>
          parseJStringAux fuel (Char.ofNat (((a * 16 + b) * 16 + c) * 16 + d) :: acc) rest2
        | _, _, _, _ => none
      | _ => none
    | _ => none
  | fuel + 1, acc, c :: rest =>
    if c.toNat < 0x20 then none else parseJStringAux fuel (c :: acc) rest
  | _, _, [] => none

/-- A JSON number: optional minus, integer part without leading zeros,
optional fraction, optional exponent.  Returns its exact rational value. -/
def parseJNumber (cs : List Char) : Option (Rat × List Char) :=
  let neg := cs.headD 'x' = '-'
  let cs1 := if neg then cs.drop 1 else cs
  let intDigits := cs1.takeWhile Char.isDigit
  let rest1 := cs1.dropWhile Char.isDigit
  if intDigits = [] then none
  else if intDigits.length > 1 && intDigits.headD ' ' = '0' then none
  else
    let (fracDigits, rest2) := match rest1 with
      | '.' :: t =>
        (t.takeWhile Char.isDigit, t.dropWhile Char.isDigit)
      | _ => ([], rest1)
    if rest1 ≠ rest2 && fracDigits = [] then none
    else
      let (expOk, expNeg, expDigits, rest3) := match rest2 with
        | 'e' :: '+' :: t => (true, false, t.takeWhile Char.isDigit, t.dropWhile Char.isDigit)
        | 'e' :: '-' :: t => (true, true, t.takeWhile Char.isDigit, t.dropWhile Char.isDigit)
        | 'e' :: t => (true, false, t.takeWhile Char.isDigit, t.dropWhile Char.isDigit)
        | 'E' :: '+' :: t => (true, false, t.takeWhile Char.isDigit, t.dropWhile Char.isDigit)
        | 'E' :: '-' :: t => (true, true, t.takeWhile Char.isDigit, t.dropWhile Char.isDigit)
        | 'E' :: t => (true, false, t.takeWhile Char.isDigit, t.dropWhile Char.isDigit)
        | _ => (false, false, [], rest2)
      if expOk && expDigits = [] then none
      else
        let mantissa : Rat :=
          (digitsToNat intDigits : Rat) +
            (digitsToNat fracDigits : Rat) / ((10 : Rat) ^ fracDigits.length)
        let scaled : Rat :=
          if expOk then
            if expNeg then mantissa / ((10 : Rat) ^ digitsToNat expDigits)
            else mantissa * ((10 : Rat) ^ digitsToNat expDigits)
          else mantissa
        some (if neg then -scaled else scaled, rest3)

mutual

/-- One JSON value (fuelled recursive-descent, mirroring json.loads). -/
def parseJVal : Nat → List Char → Option (JValue × List Char)
  | 0, _ => none
  | fuel + 1, cs =>
    match cs.dropWhile isJsonWs with
    | [] => none
    | 'n' :: 'u' :: 'l' :: 'l' :: rest => some (.null, rest)
    | 't' :: 'r' :: 'u' :: 'e' :: rest => some (.bool true, rest)
    | 'f' :: 'a' :: 'l' :: 's' :: 'e' :: rest => some (.bool false, rest)
    | '"' :: rest =>
      match parseJStringAux rest.length rest [] with
      | some (s, rest2) => some (.str s, rest2)
      | none => none
    | '[' :: rest =>
      (match rest.dropWhile isJsonWs with
       | ']' :: rest2 => some (.arr [], rest2)
       | _ => parseJArrItems fuel [] rest)
    | '{' :: rest =>
      (match rest.dropWhile isJsonWs with
       | '}' :: rest2 => some (.obj [], rest2)
       | _ => parseJObjItems fuel [] rest)
    | other => match parseJNumber other with
      | some (q, rest) => some (.num q, rest)
      | none => none

/-- Comma-separated array items up to the closing bracket. -/
def parseJArrItems : Nat → List JValue → List Char → Option (JValue × List Char)
  | 0, _, _ => none
  | fuel + 1, acc, cs =>
    match parseJVal fuel cs with
    | none => none
    | some (v, rest) =>
      match rest.dropWhile isJsonWs with
      | ',' :: rest2 => parseJArrItems fuel (v :: acc) rest2
      | ']' :: rest2 => some (.arr (v :: acc).reverse, rest2)
      | _ => none

/-- Comma-separated key-value pairs up to the closing brace. -/
def parseJObjItems : Nat → List (String × JValue) → List Char → Option (JValue × List Char)
  | 0, _, _ => none
  | fuel + 1, acc, cs =>
    match cs.dropWhile isJsonWs with
    | '"' :: rest =>
      match parseJStringAux rest.length rest [] with
      | none => none
      | some (key, rest2) =>
        match rest2.dropWhile isJsonWs with
        | ':' :: rest3 =>
          match parseJVal fuel rest3 with
          | none => none
          | some (v, rest4) =>
            match rest4.dropWhile isJsonWs with
            | ',' :: rest5 => parseJObjItems fuel ((key, v) :: acc) rest5
            | '}' :: rest5 => some (.obj ((key, v) :: acc).reverse, rest5)
            | _ => none
        | _ => none
    | _ => none
end

/-- json.loads: one JSON document, with only whitespace around it, or a
decode failure (`none` stands for json.JSONDecodeError). -/
def json_loads (s : String) : Option JValue :=
  match parseJVal (s.data.length + 1) s.data with
  | some (v, rest) => if rest.dropWhile isJsonWs = [] then some v else none
  | none => none

/-- Python dict.get over the decoded object fields: the value of the last
binding of the key (later duplicate keys overwrite earlier ones), or the
default. -/
def json_object_get (fields : List (String × JValue)) (key : String) (dflt : JValue) : JValue :=
  match fields.reverse.find? (fun kv => kv.1 == key) with
  | some kv => kv.2
  | none => dflt

/-- Python equality between a decoded JSON value and a str: true only when the
value is that string (comparisons across types are False in Python). -/
def jvIsStr (v : JValue) (s : String) : Bool :=
  match v with
  | .str t => t == s
  | _ => false

/-- A reference catalog row as loaded by load_reference_database: both keys
are always present. -/
structure RefProduct where
  product_id : String
  description : String
deriving DecidableEq

/-- An extracted record handed to the matcher; `product_id` holds the absent
sentinel "N/A" when no identifier was read (dict.get with that default). -/
structure ExtractedProduct where
  product_id : String
  description : String
deriving DecidableEq

/-- The dictionary every matching function returns.  Fields are JValues
because the lenient response parse can place arbitrary decoded JSON there;
the deterministic paths only ever store strings, numbers and null. -/
structure MatchResult where
  matched_id : JValue
  confidence : JValue
  reasoning : JValue
  matched_description : JValue

namespace AiMatcher

/-- Sub of the anchored pattern: three backticks, an optional literal json,
then a whitespace run that must contain a newline; the match ends at the last
newline inside that run (greedy star backtracking to the required final
newline).  On no match the string is unchanged. -/
def wsNl (cs : List Char) : Option (List Char) :=
  let w := cs.takeWhile isPySpace
  let rest := cs.dropWhile isPySpace
  if w.contains '\n' then
    some ((w.reverse.takeWhile (fun c => c ≠ '\n')).reverse ++ rest)
  else none

/-- re.sub removing an opening markdown code fence (see `wsNl`): the optional
json tag is tried greedily first, then dropped on backtracking. -/
def stripFenceStart (s : String) : String :=
  if startsWithStr s "```" then
    let rest := s.data.drop 3
    let attempt :=
      if "json".data.isPrefixOf rest then
        match wsNl (rest.drop 4) with
        | some r => some r
        | none => wsNl rest
      else wsNl rest
    match attempt with
    | some r => String.mk r
    | none => s
  else s

/-- re.sub removing a closing fence: the first newline-backticks occurrence
followed only by whitespace to the end of the string is cut off (the end
anchor after a greedy whitespace star is reachable exactly when the tail is
all whitespace). -/
def stripFenceEndAux : List Char → List Char
  | [] => []
  | c :: rest =>
    if c = '\n' && "```".data.isPrefixOf rest && (rest.drop 3).all isPySpace then []
    else c :: stripFenceEndAux rest

/-- re.sub removing a closing markdown code fence. -/
def stripFenceEnd (s : String) : String := String.mk (stripFenceEndAux s.data)

/-- One attempt of the fallback pattern at the head of `cs`: the literal
quoted matched_id key, optional whitespace, a colon, optional whitespace, then
a quoted non-empty capture without inner quotes. -/
def matchedIdAttempt (cs : List Char) : Option String :=
  if "\"matched_id\"".data.isPrefixOf cs then
    match (cs.drop 12).dropWhile isPySpace with
    | ':' :: t2 =>
      match t2.dropWhile isPySpace with
      | '"' :: t3 =>
        let captured := t3.takeWhile (fun c => c ≠ '"')
        match t3.dropWhile (fun c => c ≠ '"') with
        | '"' :: _ => if captured ≠ [] then some (String.mk captured) else none
        | _ => none
      | _ => none
    | _ => none
  else none

/-- re.search of the fallback pattern: leftmost successful attempt. -/
def matchedIdSearch : Nat → List Char → Option String
  | 0, _ => none
  | _, [] => none
  | fuel + 1, cs =>
    match matchedIdAttempt cs with
    | some r => some r
    | none => matchedIdSearch fuel (cs.drop 1)

/-- ai_matcher.parse_gemini_matching_response.  `Except.error` stands for the
AttributeError raised when the decoded JSON is not a dict (the caller catches
it); exception message texts are abstracted. -/
def parse_gemini_matching_response (response_text : String) (reference_database : List RefProduct) :
    Except String MatchResult :=
  let cleaned := pyStrip response_text
  let cleaned2 :=
    if startsWithStr cleaned "```" then stripFenceEnd (stripFenceStart cleaned)
    else cleaned
  match json_loads cleaned2 with
  | some (.obj fields) =>
    let matchedId := json_object_get fields "matched_id" (.str "NO_MATCH")
    let confidence := json_object_get fields "confidence" (.num 0)
    let reasoning := json_object_get fields "reasoning" (.str "No reasoning provided")
    let matchedDescription : JValue :=
      if jvIsStr matchedId "NO_MATCH" then .null
      else
        match reference_database.find? (fun prod => jvIsStr matchedId prod.product_id) with
        | some prod => .str prod.description
        | none => .null
    .ok ⟨matchedId, confidence, reasoning, matchedDescription⟩
  | some _ => .error "AttributeError"
  | none =>
    match matchedIdSearch response_text.data.length response_text.data with
    | some mid => .ok ⟨.str mid, .null, .str "Parsed from malformed JSON", .null⟩
    | none => .ok ⟨.str "NO_MATCH", .null, .str "Failed to parse Gemini response", .null⟩

/-- ai_matcher.match_product_with_gemini.  `api_key_set` models the
GEMINI_API_KEY configuration check (raising when unset), `ai_response` the
text or transport error of the single generate_content call; the prompt built
from the extracted product and the first 500 catalog entries does not
influence this value here.  `confidence_threshold` only enters that prompt. -/
def match_product_with_gemini (extracted_product : ExtractedProduct)
    (reference_database : List RefProduct) (confidence_threshold : Rat)
    (api_key_set : Bool) (ai_response : Except String String) : Except String MatchResult :=
  if !api_key_set then .error "GEMINI_API_KEY environment variable not set"
  else if reference_database = [] then
    .ok ⟨.str "NO_MATCH", .null, .str "Reference database is empty", .null⟩
  else
    match ai_response with
    | .error e => .ok ⟨.str "NO_MATCH", .null, .str ("Error calling Gemini API: " ++ e), .null⟩
    | .ok text =>
      match parse_gemini_matching_response text reference_database with
      | .ok result => .ok result
      | .error e => .ok ⟨.str "NO_MATCH", .null, .str ("Error calling Gemini API: " ++ e), .null⟩

/-- re.match of: literal K002, three digits, hyphen, two digits, then at least
one character in the class hyphen or A-Z (an extra suffix after the standard
pattern; unanchored at the right). -/
def k002ExtraSuffix (cs : List Char) : Bool :=
  match cs with
  | 'K' :: '0' :: '0' :: '2' :: d1 :: d2 :: d3 :: '-' :: e1 :: e2 :: c :: _ =>
    d1.isDigit && d2.isDigit && d3.isDigit && e1.isDigit && e2.isDigit &&
      (isUpperAZ c || c = '-')
  | _ => false

/-- re.match of: literal KRUSE, a digit run, then at least one character in
the class hyphen or A-Z.  Backtracking into the digit run cannot help since a
digit never matches the class, so the full run must be followed by one. -/
def kruseExtraSuffix (cs : List Char) : Bool :=
  match cs with
  | 'K' :: 'R' :: 'U' :: 'S' :: 'E' :: rest =>
    let run := rest.takeWhile Char.isDigit
    run ≠ [] &&
      (match rest.drop run.length with
       | c :: _ => isUpperAZ c || c = '-'
       | [] => false)
  | _ => false

/-- ai_matcher.select_simplest_product_id, inner complexity_score: the sort
key (has_extra_suffix, is_not_kruse, length, alphabetical), smaller is
simpler. -/
def complexity_score (product_id : String) : Nat × Nat × Nat × String :=
  let pid := pyUpper product_id
  let hasExtraSuffix : Nat :=
    if k002ExtraSuffix pid.data then 1
    else if kruseExtraSuffix pid.data then 1
    else 0
  let isNotKruse : Nat := if startsWithStr pid "KRUSE" then 0 else 1
  (hasExtraSuffix, isNotKruse, pid.data.length, pid)

/-- Python string comparison: lexicographic on code points. -/
def strLtB : List Char → List Char → Bool
  | [], [] => false
  | [], _ :: _ => true
  | _ :: _, [] => false
  | a :: as, b :: bs =>
    if a.val < b.val then true
    else if b.val < a.val then false
    else strLtB as bs

/-- Strict comparison of complexity scores (Python tuple comparison). -/
def scoreLt (x y : Nat × Nat × Nat × String) : Bool :=
  if x.1 < y.1 then true
  else if y.1 < x.1 then false
  else if x.2.1 < y.2.1 then true
  else if y.2.1 < x.2.1 then false
  else if x.2.2.1 < y.2.2.1 then true
  else if y.2.2.1 < x.2.2.1 then false
  else strLtB x.2.2.2.data y.2.2.2.data

/-- Stable insertion of a product into a list sorted by complexity score
(equal keys keep their original relative order, as Python sorted does). -/
def insertByScore (x : RefProduct) : List RefProduct → List RefProduct
  | [] => [x]
  | y :: ys =>
    if scoreLt (complexity_score x.product_id) (complexity_score y.product_id) then
      x :: y :: ys
    else y :: insertByScore x ys

/-- Python sorted(products, key=complexity_score): a stable sort. -/
def sortByScore (ps : List RefProduct) : List RefProduct :=
  ps.foldl (fun acc p => insertByScore p acc) []

/-- ai_matcher.select_simplest_product_id.  The source returns from inside a
guarded for-loop in the first special case and otherwise falls through; the
fall-throughs are modelled by the chained matches. -/
def select_simplest_product_id (matching_products : List RefProduct) : Option RefProduct :=
  match matching_products with
  | [] => none
  | [p] => some p
  | ps =>
    let product_ids := ps.map (fun p => pyUpper p.product_id)
    let step1 : Option RefProduct :=
      if product_ids.contains "KRUSE01" && product_ids.contains "CG00001" then
        ps.find? (fun p => pyUpper p.product_id == "KRUSE01")
      else none
    match step1 with
    | some p => some p
    | none =>
      let kruseProducts := ps.filter (fun p => startsWithStr (pyUpper p.product_id) "KRUSE")
      let cgProducts := ps.filter (fun p => startsWithStr (pyUpper p.product_id) "CG")
      let step2 : Option RefProduct :=
        if kruseProducts ≠ [] && cgProducts ≠ [] &&
            ps.length = kruseProducts.length + cgProducts.length &&
            kruseProducts.length = 1 then
          kruseProducts.head?
        else none
      match step2 with
      | some p => some p
      | none =>
        if product_ids.contains "KRUSE5" && product_ids.contains "KRUSE05" then none
        else
          match sortByScore ps with
          | [] => none
          | simplest :: others =>
            if (complexity_score simplest.product_id).1 = 0 &&
                others.all (fun p => (complexity_score p.product_id).1 ≠ 0) then
              some simplest
            else none

/-- Python str.isdigit: non-empty and all (ASCII) digits. -/
def pyIsDigitStr (s : String) : Bool := s ≠ "" && s.data.all Char.isDigit

/-- ai_matcher.match_product_by_id.  Both external effects of the one AI call
the function may make are parameters, see `match_product_with_gemini`; the
result is `Except.error` exactly when that call raises past the function. -/
def match_product_by_id (extracted_product : ExtractedProduct)
    (reference_database : List RefProduct) (confidence_threshold : Rat)
    (use_ai_fallback : Bool) (api_key_set : Bool) (ai_response : Except String String) :
    Except String MatchResult :=
  if reference_database = [] then
    .ok ⟨.str "NO_MATCH", .num 0, .str "Reference database is empty", .null⟩
  else
    let extracted_id := extracted_product.product_id
    let normalized := normalize_product_id extracted_id
    if normalized == "" || extracted_id == "N/A" then
      if use_ai_fallback then
        match_product_with_gemini extracted_product reference_database confidence_threshold
          api_key_set ai_response
      else
        .ok ⟨.str "NO_MATCH", .num 0,
          .str ("Invalid extracted product ID: " ++ extracted_id ++ " (AI fallback disabled)"),
          .null⟩
    else
      let matching_products := reference_database.filter (fun r =>
        normalize_product_id r.product_id == normalized ||
          normalized ++ "-01" == normalize_product_id r.product_id)
      match matching_products with
      | [] =>
        .ok ⟨.str "NO_MATCH", .num 0,
          .str ("No match found for normalized ID: " ++ normalized ++
            " (from " ++ extracted_id ++ ")"), .null⟩
      | [m] =>
        .ok ⟨.str m.product_id, .num 1,
          .str ("ID match: " ++ extracted_id ++ " -> " ++ m.product_id ++
            " (normalized: " ++ normalized ++ ")"), .str m.description⟩
      | m0 :: m1 :: ms2 =>
        match select_simplest_product_id (m0 :: m1 :: ms2) with
        | some m =>
          .ok ⟨.str m.product_id, .num 1,
            .str ("ID match (simplest): " ++ extracted_id ++ " -> " ++ m.product_id ++
              " (normalized: " ++ normalized ++ ")"), .str m.description⟩
        | none =>
          let isShortId := pyIsDigitStr normalized && normalized.data.length ≤ 2
          if isShortId && use_ai_fallback then
            match_product_with_gemini extracted_product (m0 :: m1 :: ms2) confidence_threshold
              api_key_set ai_response
          else
            .ok ⟨.str m0.product_id, .num ((9 : Rat) / 10),
              .str ("ID match (multiple candidates): " ++ extracted_id ++ " -> " ++
                m0.product_id ++ " (normalized: " ++ normalized ++ ")"),
              .str m0.description⟩

end AiMatcher

/-- Two-digit zero-padded decimal part. -/
def pad2 (n : Nat) : String := if n < 10 then "0" ++ toString n else toString n

/-- Python format of a price kept in cents with two decimal places; exact for
every value the cost regexes can produce. -/
def formatCents (cents : Nat) : String := toString (cents / 100) ++ "." ++ pad2 (cents % 100)

namespace GeminiParser

/-- One attempt, at the head of `cs`, of the search pattern: optional dollar
sign, optional whitespace, one to five digits (greedy), an optional dot with
exactly two digits, optional whitespace, and an optional unit out of /LB /CS
/EA.  Everything after the digits is optional, so no backtracking occurs.
Returns the parsed amount in cents and the unit group (empty if absent). -/
def priceAttempt (cs : List Char) : Option (Nat × String) :=
  let t0 := match cs with
    | '$' :: t => t
    | _ => cs
  let t1 := t0.dropWhile isPySpace
  let digits := t1.takeWhile Char.isDigit
  if digits = [] then none
  else
    let d := digits.take 5
    let afterD := t1.drop d.length
    let (cents, afterFrac) :=
      match afterD with
      | '.' :: a :: b :: tl =>
        if a.isDigit && b.isDigit then
          (digitsToNat d * 100 + ((a.toNat - '0'.toNat) * 10 + (b.toNat - '0'.toNat)), tl)
        else (digitsToNat d * 100, afterD)
      | _ => (digitsToNat d * 100, afterD)
    let afterWs := afterFrac.dropWhile isPySpace
    let unit : String :=
      if "/LB".data.isPrefixOf afterWs then "/LB"
      else if "/CS".data.isPrefixOf afterWs then "/CS"
      else if "/EA".data.isPrefixOf afterWs then "/EA"
      else ""
    some (cents, unit)

/-- re.search of the price pattern: leftmost successful attempt. -/
def priceSearch : Nat → List Char → Option (Nat × String)
  | 0, _ => none
  | _, [] => none
  | fuel + 1, cs =>
    match priceAttempt cs with
    | some r => some r
    | none => priceSearch fuel (cs.drop 1)

/-- gemini_parser.clean_cost.  The accepted numeric range of the source is
0.01 to 99999.99 (1 to 9999999 cents). -/
def clean_cost (cost_str : String) : Option String :=
  let s := pyUpper (pyStrip cost_str)
  if s = "OUT" || s = "OUT OF STOCK" then some "OUT OF STOCK"
  else if s = "QUOTE" || s = "QUOTE REQUIRED" then some "QUOTE REQUIRED"
  else
    match priceSearch s.data.length s.data with
    | none => none
    | some (cents, unit) =>
      if 1 ≤ cents && cents ≤ 9999999 then some ("$" ++ formatCents cents ++ unit)
      else none

end GeminiParser

namespace BaseParser

/-- One attempt of the base cost pattern at the head of `cs`: a literal
dollar sign, optional whitespace, one to four digits, an optional dot with
exactly two digits.  Returns the captured amount in cents. -/
def priceAttempt (cs : List Char) : Option Nat :=
  match cs with
  | '$' :: t =>
    let t1 := t.dropWhile isPySpace
    let digits := t1.takeWhile Char.isDigit
    if digits = [] then none
    else
      let d := digits.take 4
      let afterD := t1.drop d.length
      match afterD with
      | '.' :: a :: b :: _ =>
        if a.isDigit && b.isDigit then
          some (digitsToNat d * 100 + ((a.toNat - '0'.toNat) * 10 + (b.toNat - '0'.toNat)))
        else some (digitsToNat d * 100)
      | _ => some (digitsToNat d * 100)
  | _ => none

/-- re.search of the base cost pattern: leftmost successful attempt. -/
def priceSearch : Nat → List Char → Option Nat
  | 0, _ => none
  | _, [] => none
  | fuel + 1, cs =>
    match priceAttempt cs with
    | some r => some r
    | none => priceSearch fuel (cs.drop 1)

/-- vendors.base_parser.BaseParser.clean_cost.  A dollar marker is mandatory;
amounts strictly above 1000.00 (100000 cents) are rejected; there is no lower
bound beyond what the digit pattern admits (0.00 is accepted). -/
def clean_cost (cost_str : String) : Option String :=
  if cost_str = "" then none
  else if !cost_str.data.contains '$' then none
  else
    match priceSearch cost_str.data.length cost_str.data with
    | none => none
    | some cents =>
      if cents > 100000 then none
      else some ("$" ++ formatCents cents)

/-- vendors.base_parser.BaseParser.is_valid_description: at least two
alphabetic characters. -/
def is_valid_description (description : String) : Bool :=
  description ≠ "" && (description.data.filter Char.isAlpha).length ≥ 2

end BaseParser

/-- A line item as produced by the vendor parsers: the dict with keys
product_id, description, cost. -/
structure LineItem where
  product_id : String
  description : String
  cost : String
deriving DecidableEq

namespace KruseSons

/-- vendors.kruse_sons.KruseSonsParser.extract_product_id: re.match of one to
three leading digits followed by a word boundary.  A longer digit run cannot
match (backtracking leaves a digit, a word character, after the group). -/
def extract_product_id (text : String) : Option String × String :=
  let t := pyStrip text
  let cs := t.data
  let run := cs.takeWhile Char.isDigit
  let boundary :=
    match cs.drop run.length with
    | [] => true
    | c :: _ => !isWordChar c
  if 1 ≤ run.length && run.length ≤ 3 && boundary then
    (some (String.mk run), pyStrip (String.mk (cs.drop run.length)))
  else (none, t)

/-- vendors.kruse_sons.KruseSonsParser.validate_product_id: absent-sentinel
variants validate, otherwise one to three digits up to the end anchor. -/
def validate_product_id (product_id : String) : Bool :=
  if product_id = "" then false
  else if pyUpper product_id = "N/A" || pyUpper product_id = "NA" ||
      pyUpper product_id = "-" then true
  else
    let cs := product_id.data
    let run := cs.takeWhile Char.isDigit
    1 ≤ run.length && run.length ≤ 3 && atEndDollar (cs.drop run.length)

/-- One attempt of the decimal price pattern at the head of `cs`: one to five
digits, a dot, exactly two digits.  Only the full digit run can be followed
by the dot, and a run longer than five digits cannot match here (later start
positions inside the run are tried by the search). -/
def decAttempt (cs : List Char) : Option Nat :=
  match cs with
  | c :: _ =>
    if c.isDigit then
      let run := cs.takeWhile Char.isDigit
      if run.length ≤ 5 then
        match cs.drop run.length with
        | '.' :: a :: b :: _ =>
          if a.isDigit && b.isDigit then
            some (digitsToNat run * 100 + ((a.toNat - '0'.toNat) * 10 + (b.toNat - '0'.toNat)))
          else none
        | _ => none
      else none
    else none
  | [] => none

/-- re.search of the decimal price pattern: leftmost successful attempt,
position by position. -/
def decSearch : Nat → List Char → Option Nat
  | 0, _ => none
  | _, [] => none
  | fuel + 1, cs =>
    match decAttempt cs with
    | some r => some r
    | none => decSearch fuel (cs.drop 1)

/-- re.search of a bare one-to-five digit pattern: the first digit position,
up to five digits taken greedily. -/
def intSearch (cs : List Char) : Option Nat :=
  match cs.dropWhile (fun c => !c.isDigit) with
  | [] => none
  | rest => some (digitsToNat ((rest.takeWhile Char.isDigit).take 5))

/-- vendors.kruse_sons.KruseSonsParser.clean_cost.  The accepted numeric
range is 0.01 to 9999.99 (1 to 999999 cents); the result is formatted as a
per-pound price. -/
def clean_cost (cost_str : String) : Option String :=
  if cost_str = "" then none
  else
    let s := pyUpper (pyStrip cost_str)
    let centsOpt : Option Nat :=
      match decSearch s.data.length s.data with
      | some c => some c
      | none =>
        match intSearch s.data with
        | some d => some (d * 100)
        | none => none
    match centsOpt with
    | none => none
    | some cents =>
      if 1 ≤ cents && cents ≤ 999999 then some ("$" ++ formatCents cents ++ "/LB")
      else none

/-- vendors.kruse_sons.KruseSonsParser.is_valid_description: category headers
(stripped text starting with two asterisks) are rejected, then at least two
alphabetic characters are required. -/
def is_valid_description (description : String) : Bool :=
  if description = "" then false
  else if startsWithStr (pyStrip description) "**" then false
  else (description.data.filter Char.isAlpha).length ≥ 2

/-- vendors.kruse_sons.KruseSonsParser.parse_table_row.  Cells are modelled
as strings (a Python None cell behaves as the empty string, which the
source's cell cleaning also maps to the empty string). -/
def parse_table_row (row : List String) : Option LineItem :=
  if row.length < 3 then none
  else
    let row_clean := row.map pyStrip
    let raw_id := row_clean.headD ""
    let description := row_clean.getD 1 ""
    let raw_price := row_clean.getLastD ""
    if startsWithStr description "**" then none
    else if raw_price = "" || !raw_price.data.any Char.isDigit then none
    else
      let product_id :=
        if raw_id = "" then "N/A"
        else
          match extract_product_id raw_id with
          | (some pid, _) => if validate_product_id pid then pid else "N/A"
          | (none, _) => "N/A"
      if description = "" || !is_valid_description description then none
      else
        match clean_cost raw_price with
        | some cost => some ⟨product_id, description, cost⟩
        | none => none

end KruseSons

/-- Collapse whitespace runs to single spaces and strip: the composition of
re.sub of a whitespace-run pattern with a space and str.strip, equal to
joining the whitespace-separated words with single spaces. -/
def pyWordsAux : Nat → List Char → List String
  | 0, _ => []
  | _, [] => []
  | fuel + 1, cs =>
    let cs1 := cs.dropWhile isPySpace
    match cs1.takeWhile (fun c => !isPySpace c) with
    | [] => []
    | w => String.mk w :: pyWordsAux fuel (cs1.dropWhile (fun c => !isPySpace c))

/-- The whitespace-separated words of a string. -/
def pyWords (s : String) : List String := pyWordsAux s.data.length s.data

/-- re.sub collapsing whitespace runs, then strip. -/
def normSpaces (s : String) : String := String.intercalate " " (pyWords s)

namespace RWZant

/-- vendors.rw_zant.RWZantParser.extract_product_id: leading digits; more
than six digits are split at position six and the overflow is prepended to
the remainder. -/
def extract_product_id (text : String) : Option String × String :=
  let t := pyStrip text
  let cs := t.data
  let digits := cs.takeWhile Char.isDigit
  if digits = [] then (none, t)
  else
    let remaining0 := pyStrip (String.mk (cs.drop digits.length))
    if digits.length > 6 then
      (some (String.mk (digits.take 6)),
        String.mk (digits.drop 6) ++ " " ++ remaining0)
    else (some (String.mk digits), remaining0)

/-- vendors.rw_zant.RWZantParser.validate_product_id: numeric only, at most
six digits. -/
def validate_product_id (product_id : String) : Bool :=
  product_id ≠ "" && product_id.data.all Char.isDigit && product_id.data.length ≤ 6

/-- vendors.rw_zant.RWZantParser.parse_table_row.  Cells are modelled as
strings (a Python None cell behaves as the empty string). -/
def parse_table_row (row : List String) : Option LineItem :=
  if row.length < 3 then none
  else
    match row.findIdx? (fun cell => cell ≠ "" && cell.data.contains '$') with
    | none => none
    | some costIdx =>
      let raw_id := if row.headD "" ≠ "" then pyStrip (row.headD "") else ""
      let raw_price := pyStrip (row.getD costIdx "")
      let description_parts := ((row.take costIdx).drop 1).filterMap
        (fun cell => if cell ≠ "" && pyStrip cell ≠ "" then some (pyStrip cell) else none)
      if raw_id = "" || description_parts = [] then none
      else
        match BaseParser.clean_cost raw_price with
        | none => none
        | some cost =>
          match extract_product_id raw_id with
          | (none, _) => none
          | (some pid, extra) =>
            if !validate_product_id pid then none
            else
              let description0 := String.intercalate " " description_parts
              let description1 :=
                if extra ≠ "" then extra ++ " " ++ description0 else description0
              let description := normSpaces description1
              if !BaseParser.is_valid_description description then none
              else some ⟨pid, description, cost⟩

end RWZant

namespace PdfProcessor

/-- The outside-world outcomes of the four extraction calls a single
process_pdf run can make: either the records returned or the message of the
exception raised.  `has_gemini` models the import guard HAS_GEMINI. -/
structure ExtractionEnv where
  has_gemini : Bool
  gemini : Except String (List LineItem)
  image_structured : Except String (List LineItem)
  text_tables : Except String (List LineItem)
  image_tables : Except String (List LineItem)

/-- pdf_processor.process_pdf, gemini_vendors list. -/
def gemini_vendors : List String :=
  ["glen_rose", "kruse_sons", "quirch_foods", "purcell", "laras_meat", "maui_prices",
   "cd_international", "royalty_distribution", "la_poultry", "tnt_produce",
   "apsic_wholesale", "delmar_cow", "delmar_steer",
   "gladway", "union_fish", "solomon_wholesale", "da_price", "broadleaf",
   "cofoods", "monarch_trading", "unknown"]

/-- The vendor list of the fourth fallback branch of process_pdf. -/
def structured_image_vendors : List String :=
  ["purcell", "laras_meat", "maui_prices", "cd_international", "royalty_distribution",
   "la_poultry", "tnt_produce", "apsic_wholesale", "delmar_cow", "delmar_steer",
   "gladway", "union_fish", "solomon_wholesale", "da_price", "broadleaf",
   "cofoods", "monarch_trading"]

/-- The name field of pdf_processor.VENDOR_CONFIGS (only reached for vendor
codes present in the table). -/
def vendor_config_name (vendor : String) : String :=
  if vendor = "rw_zant" then "RW Zant"
  else if vendor = "glen_rose" then "Glen Rose Meat Company"
  else if vendor = "kruse_sons" then "Kruse & Sons"
  else if vendor = "quirch_foods" then "Quirch Foods"
  else if vendor = "purcell" then "Purcell"
  else if vendor = "laras_meat" then "Laras Meat"
  else if vendor = "maui_prices" then "Maui Prices"
  else if vendor = "cd_international" then "C&D International Fishery"
  else if vendor = "royalty_distribution" then "Royalty Distribution"
  else if vendor = "la_poultry" then "Los Angeles Poultry Co"
  else if vendor = "tnt_produce" then "TNT Produce Company"
  else if vendor = "apsic_wholesale" then "APSIC Wholesale"
  else if vendor = "delmar_cow" then "Del Mar Distributions COW"
  else if vendor = "delmar_steer" then "Del Mar Distributions Steer"
  else if vendor = "gladway" then "Gladway Pricing"
  else if vendor = "union_fish" then "Union Fish"
  else if vendor = "solomon_wholesale" then "Solomon Wholesale"
  else if vendor = "da_price" then "D&A PRICE"
  else if vendor = "broadleaf" then "Broadleaf"
  else if vendor = "cofoods" then "Cofoods Inc"
  else if vendor = "monarch_trading" then "Monarch Trading"
  else if vendor = "unknown" then "Unknown Vendor"
  else ""

/-- The tail of process_pdf shared by all vendors: try extract_text_tables,
on an exception or an empty result try extract_image_tables, and if that last
call returns no records fall through to `return extracted_data`, the empty
list; only an exception of the last call is re-raised. -/
def text_ocr_stage (env : ExtractionEnv) : Except String (List LineItem) :=
  let ocr : Except String (List LineItem) :=
    match env.image_tables with
    | .ok l => if l ≠ [] then .ok l else .ok []
    | .error e => .error ("Failed to extract data from PDF: " ++ e)
  match env.text_tables with
  | .ok l => if l ≠ [] then .ok l else ocr
  | .error _ => ocr

/-- The per-vendor structured-image branch of process_pdf: a non-empty result
returns, an empty result falls through to the text/OCR tail, an exception is
re-wrapped and re-raised. -/
def structured_stage (env : ExtractionEnv) (failMsg : String) : Except String (List LineItem) :=
  match env.image_structured with
  | .ok l => if l ≠ [] then .ok l else text_ocr_stage env
  | .error e => .error (failMsg ++ e)

/-- pdf_processor.process_pdf: the strategy-selection control flow, with the
extraction calls abstracted into `env`. -/
def process_pdf (vendor : String) (env : ExtractionEnv) : Except String (List LineItem) :=
  let afterGemini : Option (List LineItem) :=
    if gemini_vendors.contains vendor && env.has_gemini then
      match env.gemini with
      | .ok l => if l ≠ [] then some l else none
      | .error _ => none
    else none
  match afterGemini with
  | some l => .ok l
  | none =>
    if vendor = "glen_rose" then
      structured_stage env "Failed to extract data from Glen Rose PDF: "
    else if vendor = "kruse_sons" then
      structured_stage env "Failed to extract data from Kruse & Sons PDF: "
    else if vendor = "quirch_foods" then
      structured_stage env "Failed to extract data from Quirch Foods PDF: "
    else if structured_image_vendors.contains vendor then
      structured_stage env ("Failed to extract data from " ++ vendor_config_name vendor ++ " PDF: ")
    else text_ocr_stage env

end PdfProcessor

/-! ## Helper lemmas -/

theorem aux_ule_iff (a b : UInt32) : (a ≤ b) ↔ a.toNat ≤ b.toNat := by
  rw [UInt32.le_def, BitVec.le_def]; rfl

theorem aux_toUpper_isDigit (c : Char) : (Char.toUpper c).isDigit = c.isDigit := by
  unfold Char.toUpper
  simp only []
  by_cases h : c.toNat ≥ 97 ∧ c.toNat ≤ 122
  · rw [if_pos h]
    have hvalid : Nat.isValidChar (c.toNat - 32) := Or.inl (by omega)
    have hofnat : Char.ofNat (c.toNat - 32) = Char.ofNatAux (c.toNat - 32) hvalid := by
      simp [Char.ofNat, hvalid]
    have hval : (Char.ofNat (c.toNat - 32)).val.toNat = c.toNat - 32 := by
      rw [hofnat]; exact rfl
    simp only [Char.isDigit]
    have h2 : ((Char.ofNat (c.toNat - 32)).val ≤ 57) = False := by
      simp only [eq_iff_iff, iff_false]
      rw [aux_ule_iff, hval]
      have : (57 : UInt32).toNat = 57 := rfl
      omega
    have h3 : (c.val ≤ 57) = False := by
      simp only [eq_iff_iff, iff_false]
      rw [aux_ule_iff]
      have : (57 : UInt32).toNat = 57 := rfl
      have hc : c.val.toNat = c.toNat := rfl
      omega
    simp [h2, h3]
  · rw [if_neg h]

theorem aux_mem_stripList {x : Char} {cs : List Char} (h : x ∈ stripList cs) : x ∈ cs := by
  unfold stripList at h
  rw [List.mem_reverse] at h
  have h1 := (List.dropWhile_sublist isPySpace).mem h
  rw [List.mem_reverse] at h1
  exact (List.dropWhile_sublist isPySpace).mem h1

theorem aux_noDigit_cleaned {s : String} (h : s.data.all (fun c => !c.isDigit)) :
    (pyUpper (pyStrip s)).data.all (fun c => !c.isDigit) := by
  rw [List.all_eq_true] at h ⊢
  intro c hc
  have hc2 : c ∈ (pyStrip s).data.map Char.toUpper := hc
  rw [List.mem_map] at hc2
  obtain ⟨d, hd, rfl⟩ := hc2
  have hds : d ∈ s.data := aux_mem_stripList hd
  have := h d hds
  rw [aux_toUpper_isDigit]
  exact this

theorem aux_k002Match_none {cs : List Char} (h : cs.all (fun c => !c.isDigit)) :
    AiMatcher.k002Match cs = none := by
  unfold AiMatcher.k002Match
  split
  · rename_i d1 d2 d3 e1 e2 tl
    simp at h
  · rfl

theorem aux_reMatch2Aux_none :
    ∀ (fuel : Nat) (cs : List Char), cs.all (fun c => !c.isDigit) →
      AiMatcher.reMatch2Aux fuel cs = none := by
  intro fuel
  induction fuel with
  | zero => intro cs _; cases cs <;> rfl
  | succ n ih =>
    intro cs h
    match cs with
    | [] => rfl
    | c :: rest =>
      rw [List.all_cons] at h
      have hc : c.isDigit = false := by
        rcases Bool.and_eq_true .. |>.mp h with ⟨h1, _⟩
        simpa using h1
      have hrest : rest.all (fun c => !c.isDigit) = true := (Bool.and_eq_true .. |>.mp h).2
      unfold AiMatcher.reMatch2Aux
      rw [if_neg (by simp [hc])]
      by_cases hnl : c = '\n'
      · rw [if_pos hnl]
      · rw [if_neg hnl]
        exact ih rest hrest

theorem aux_dropWhile_all {p : α → Bool} {l : List α} (h : l.all p) :
    l.dropWhile p = [] := by
  induction l with
  | nil => rfl
  | cons a as ih =>
    rw [List.all_cons] at h
    obtain ⟨h1, h2⟩ := Bool.and_eq_true .. |>.mp h
    rw [List.dropWhile_cons, if_pos h1]
    exact ih h2

theorem aux_reMatch3_none {cs : List Char} (h : cs.all (fun c => !c.isDigit)) :
    AiMatcher.reMatch3 cs = none := by
  unfold AiMatcher.reMatch3
  have hd : cs.dropWhile (fun c => !c.isDigit) = [] := aux_dropWhile_all h
  rw [hd]
  dsimp only
  split <;> rfl

theorem aux_digitRunsAux_nil :
    ∀ (fuel : Nat) (cs : List Char), cs.all (fun c => !c.isDigit) →
      AiMatcher.digitRunsAux fuel cs = [] := by
  intro fuel
  induction fuel with
  | zero => intro cs _; cases cs <;> rfl
  | succ n ih =>
    intro cs h
    match cs with
    | [] => rfl
    | c :: rest =>
      rw [List.all_cons] at h
      obtain ⟨h1, h2⟩ := Bool.and_eq_true .. |>.mp h
      have hc : c.isDigit = false := by simpa using h1
      unfold AiMatcher.digitRunsAux
      rw [if_neg (by simp [hc])]
      exact ih rest h2

theorem aux_longestDigitRun_none {cs : List Char} (h : cs.all (fun c => !c.isDigit)) :
    AiMatcher.longestDigitRun cs = none := by
  unfold AiMatcher.longestDigitRun
  rw [aux_digitRunsAux_nil cs.length cs h]

/-! ## Claim theorems -/

/-- C1: the identifier normalization function satisfies all five spec
examples. -/
theorem C1_normalize_examples :
    AiMatcher.normalize_product_id "Z156171" = "156171" ∧
    AiMatcher.normalize_product_id "G0015050194" = "15050194" ∧
    AiMatcher.normalize_product_id "K002013-01" = "13-01" ∧
    AiMatcher.normalize_product_id "156171-01" = "156171-01" ∧
    AiMatcher.normalize_product_id "156171A" = "156171" := by
  refine ⟨?_, ?_, ?_, ?_, ?_⟩ <;> decide

/-- C7 counterexample: the digit-free, non-sentinel input "ABC" does not
normalize to the empty token; normalize returns the cleaned input itself. -/
theorem C7_counterexample :
    AiMatcher.normalize_product_id "ABC" = "ABC" ∧
    AiMatcher.normalize_product_id "ABC" ≠ "" := by
  refine ⟨?_, ?_⟩ <;> decide

/-- C7 amended: a non-empty, non-sentinel input containing no digit
normalizes to its cleaned (stripped, uppercased) form rather than
unconditionally to the empty token; the cleaned form is itself the empty
token exactly when the input is whitespace-only. -/
theorem C7_amended (s : String) (h1 : s ≠ "") (h2 : s ≠ "N/A")
    (h3 : s.data.all (fun c => !c.isDigit)) :
    AiMatcher.normalize_product_id s = pyUpper (pyStrip s) := by
  have hclean := aux_noDigit_cleaned h3
  unfold AiMatcher.normalize_product_id
  rw [if_neg (by simp [h1, h2])]
  dsimp only
  rw [aux_k002Match_none hclean]
  rw [aux_reMatch2Aux_none _ _ hclean]
  rw [aux_reMatch3_none hclean]
  rw [aux_longestDigitRun_none hclean]

/-- C7 amended, witness at the concrete input "ABC". -/
theorem C7_amended_witness :
    AiMatcher.normalize_product_id "ABC" = pyUpper (pyStrip "ABC") :=
  C7_amended "ABC" (by decide) (by decide) (by decide)

/-- C10: with an empty reference catalog, match_product_by_id returns the
NO_MATCH result with confidence 0.0 and a null matched description
immediately, for every extracted record, both values of use_ai_fallback, and
regardless of the AI environment (in particular, with the API key unset it
still does not raise, so no AI call is made). -/
theorem C10_empty_catalog (p : ExtractedProduct) (t : Rat) (u k : Bool)
    (resp : Except String String) :
    AiMatcher.match_product_by_id p [] t u k resp =
      .ok ⟨.str "NO_MATCH", .num 0, .str "Reference database is empty", .null⟩ := rfl

/-- C8: for the candidate pair K002019-01 and K002019-01FZ (either order, any
descriptions), the simplicity tie-break selects K002019-01, and
match_product_by_id resolves an extracted K002019-01 against that catalog at
confidence 1.0. -/
theorem C8_simplicity_tiebreak (d1 d2 e : String) (t : Rat) (u k : Bool)
    (resp : Except String String) :
    AiMatcher.select_simplest_product_id [⟨"K002019-01", d1⟩, ⟨"K002019-01FZ", d2⟩] =
      some ⟨"K002019-01", d1⟩ ∧
    AiMatcher.select_simplest_product_id [⟨"K002019-01FZ", d2⟩, ⟨"K002019-01", d1⟩] =
      some ⟨"K002019-01", d1⟩ ∧
    AiMatcher.match_product_by_id ⟨"K002019-01", e⟩
      [⟨"K002019-01", d1⟩, ⟨"K002019-01FZ", d2⟩] t u k resp =
      .ok ⟨.str "K002019-01", .num 1,
        .str "ID match (simplest): K002019-01 -> K002019-01 (normalized: 19-01)",
        .str d1⟩ :=
  ⟨rfl, rfl, rfl⟩

/-- C9: an extracted identifier normalizing to "11" against a catalog whose
only entry normalizes to "11-01" is accepted through the literal -01
suffix-extension rule at confidence 1.0. -/
theorem C9_suffix_extension (p : ExtractedProduct) (e : RefProduct) (t : Rat)
    (u k : Bool) (resp : Except String String)
    (h1 : AiMatcher.normalize_product_id p.product_id = "11")
    (h2 : AiMatcher.normalize_product_id e.product_id = "11-01") :
    AiMatcher.match_product_by_id p [e] t u k resp =
      .ok ⟨.str e.product_id, .num 1,
        .str ("ID match: " ++ p.product_id ++ " -> " ++ e.product_id ++ " (normalized: 11)"),
        .str e.description⟩ := by
  have hna : p.product_id ≠ "N/A" := by
    intro hc
    rw [hc] at h1
    exact absurd h1 (by decide)
  have hbeq : (p.product_id == "N/A") = false := beq_eq_false_iff_ne.mpr hna
  unfold AiMatcher.match_product_by_id
  rw [if_neg (by simp : ¬([e] : List RefProduct) = [])]
  dsimp only
  rw [h1, hbeq]
  rw [if_neg (by decide : ¬((("11" : String) == "") || false) = true)]
  rw [List.filter_cons, List.filter_nil]
  rw [h2]
  rw [if_pos (by decide : ((("11-01" : String) == "11") || (("11" : String) ++ "-01" == "11-01")) = true)]
  simp [String.append_assoc]

/-- With the API key configured, the AI matching wrapper catches every error
and always returns a result. -/
theorem aux_gemini_ok (e : ExtractedProduct) (db : List RefProduct) (t : Rat)
    (resp : Except String String) :
    ∃ r, AiMatcher.match_product_with_gemini e db t true resp = .ok r := by
  unfold AiMatcher.match_product_with_gemini
  rw [if_neg (by decide : ¬((!true) = true))]
  split
  · exact ⟨_, rfl⟩
  · split
    · exact ⟨_, rfl⟩
    · split <;> exact ⟨_, rfl⟩

/-- C2 counterexample: with the Gemini API key unset, a record whose
identifier is the absent sentinel routes to AI matching, whose key check
raises out of match_product_by_id — so the function is not total as
claimed. -/
theorem C2_counterexample :
    AiMatcher.match_product_by_id ⟨"N/A", "PORK LOIN"⟩ [⟨"A1", "D"⟩]
      ((8 : Rat) / 10) true false (.ok "") =
      .error "GEMINI_API_KEY environment variable not set" := rfl

/-- C2 amended: match_product_by_id returns exactly one MatchResult and
never raises provided the AI fallback is disabled or the Gemini API key is
configured; only the missing-key check can escape it. -/
theorem C2_amended (p : ExtractedProduct) (db : List RefProduct) (t : Rat)
    (u k : Bool) (resp : Except String String) (h : u = false ∨ k = true) :
    ∃ r, AiMatcher.match_product_by_id p db t u k resp = .ok r := by
  unfold AiMatcher.match_product_by_id
  split
  · exact ⟨_, rfl⟩
  · dsimp only
    split
    · split
      · rename_i hu
        rcases h with hf | hk
        · rw [hf] at hu; exact absurd hu (by decide)
        · rw [hk]; exact aux_gemini_ok ..
      · exact ⟨_, rfl⟩
    · split
      · exact ⟨_, rfl⟩
      · exact ⟨_, rfl⟩
      · split
        · exact ⟨_, rfl⟩
        · split
          · rename_i hcond
            have hu : u = true := by
              rcases Bool.and_eq_true .. |>.mp hcond with ⟨_, h2⟩
              exact h2
            rcases h with hf | hk
            · rw [hf] at hu; exact absurd hu (by decide)
            · rw [hk]; exact aux_gemini_ok ..
          · exact ⟨_, rfl⟩

/-- C2 amended, witness with the AI fallback disabled. -/
theorem C2_amended_witness :
    ∃ r, AiMatcher.match_product_by_id ⟨"N/A", "PORK LOIN"⟩ [⟨"A1", "D"⟩]
      ((8 : Rat) / 10) false false (.ok "") = .ok r :=
  C2_amended _ _ _ _ _ _ (Or.inl rfl)

/-- C4 counterexample: gemini_parser.clean_cost accepts 12345 (12345.00,
1234500 cents — far above the claimed 9999.99 bound, 999999 cents), and
BaseParser.clean_cost accepts a zero amount (below the claimed 0.01 lower
bound), so the claimed acceptance range is wrong for both cited
functions. -/
theorem C4_counterexample :
    GeminiParser.clean_cost "12345" = some "$12345.00" ∧
    "$12345.00" = "$" ++ formatCents 1234500 ∧ ¬(1234500 ≤ 999999) ∧
    BaseParser.clean_cost "$0.00" = some "$0.00" ∧
    "$0.00" = "$" ++ formatCents 0 ∧ ¬(1 ≤ 0) := by
  refine ⟨?_, ?_, ?_, ?_, ?_, ?_⟩ <;> decide

/-- C4 amended: each cost cleaner bounds accepted amounts, but not by
0.01-9999.99: gemini_parser.clean_cost accepts 0.01-99999.99 (1-9999999
cents, after the sentinels), BaseParser.clean_cost accepts 0.00-1000.00
(0-100000 cents, dollar marker mandatory); an accepted amount is returned
exactly as parsed, never clamped, and out-of-range parses yield null. -/
theorem C4_amended (s : String) :
    (∀ r, GeminiParser.clean_cost s = some r →
      r = "OUT OF STOCK" ∨ r = "QUOTE REQUIRED" ∨
      ∃ c u, GeminiParser.priceSearch (pyUpper (pyStrip s)).data.length
          (pyUpper (pyStrip s)).data = some (c, u) ∧
        1 ≤ c ∧ c ≤ 9999999 ∧ r = "$" ++ formatCents c ++ u) ∧
    (∀ r, BaseParser.clean_cost s = some r →
      ∃ c, BaseParser.priceSearch s.data.length s.data = some c ∧
        c ≤ 100000 ∧ r = "$" ++ formatCents c) := by
  constructor
  · intro r h
    unfold GeminiParser.clean_cost at h
    dsimp only at h
    split at h
    · simp only [Option.some.injEq] at h
      exact Or.inl h.symm
    · split at h
      · simp only [Option.some.injEq] at h
        exact Or.inr (Or.inl h.symm)
      · split at h
        · exact absurd h (by simp)
        · rename_i c u heq
          split at h
          · rename_i hrange
            simp only [Option.some.injEq] at h
            rcases Bool.and_eq_true .. |>.mp hrange with ⟨ha, hb⟩
            exact Or.inr (Or.inr ⟨c, u, heq, of_decide_eq_true ha, of_decide_eq_true hb, h.symm⟩)
          · exact absurd h (by simp)
  · intro r h
    unfold BaseParser.clean_cost at h
    split at h
    · exact absurd h (by simp)
    · split at h
      · exact absurd h (by simp)
      · split at h
        · exact absurd h (by simp)
        · rename_i c heq
          split at h
          · exact absurd h (by simp)
          · rename_i hgt
            simp only [Option.some.injEq] at h
            have hle : c ≤ 100000 := by
              by_contra hc
              exact hgt (by omega)
            exact ⟨c, heq, hle, h.symm⟩

/-- C4 amended, witness at a price accepted by both cleaners. -/
theorem C4_amended_witness :
    ("$4.99/LB" = "OUT OF STOCK" ∨ "$4.99/LB" = "QUOTE REQUIRED" ∨
      ∃ c u, GeminiParser.priceSearch (pyUpper (pyStrip "$4.99/LB")).data.length
          (pyUpper (pyStrip "$4.99/LB")).data = some (c, u) ∧
        1 ≤ c ∧ c ≤ 9999999 ∧ "$4.99/LB" = "$" ++ formatCents c ++ u) ∧
    (∃ c, BaseParser.priceSearch "$4.99/LB".data.length "$4.99/LB".data = some c ∧
      c ≤ 100000 ∧ "$4.99" = "$" ++ formatCents c) :=
  ⟨(C4_amended "$4.99/LB").1 "$4.99/LB" (by decide),
   (C4_amended "$4.99/LB").2 "$4.99" (by decide)⟩

/-- C5 counterexample: for a standard vendor, when the text strategy and
the OCR strategy both return zero records without raising (every strategy
fails in the claim's sense), process_pdf returns the empty list instead of
signalling a failure. -/
theorem C5_counterexample :
    PdfProcessor.process_pdf "rw_zant" ⟨false, .ok [], .ok [], .ok [], .ok []⟩ = .ok [] ∧
    ∀ e, PdfProcessor.process_pdf "rw_zant" ⟨false, .ok [], .ok [], .ok [], .ok []⟩ ≠
      .error e := by
  refine ⟨rfl, ?_⟩
  intro e h
  exact Except.noConfusion h

/-- C5 amended: for a standard vendor whose text strategy failed,
process_pdf signals a failure only when the terminal OCR strategy raises; if
OCR merely returns zero records, process_pdf returns the empty list, so
callers cannot distinguish that case from "no products found". -/
theorem C5_amended (vendor : String) (env : PdfProcessor.ExtractionEnv)
    (h1 : PdfProcessor.gemini_vendors.contains vendor = false)
    (h2 : PdfProcessor.structured_image_vendors.contains vendor = false)
    (h3 : vendor ≠ "glen_rose") (h4 : vendor ≠ "kruse_sons") (h5 : vendor ≠ "quirch_foods")
    (h6 : env.text_tables = .ok [] ∨ ∃ e, env.text_tables = .error e) :
    (∀ e, env.image_tables = .error e →
      PdfProcessor.process_pdf vendor env = .error ("Failed to extract data from PDF: " ++ e)) ∧
    (env.image_tables = .ok [] → PdfProcessor.process_pdf vendor env = .ok []) := by
  have htail : PdfProcessor.process_pdf vendor env = PdfProcessor.text_ocr_stage env := by
    unfold PdfProcessor.process_pdf
    rw [h1]
    simp only [Bool.false_and]
    rw [if_neg (by decide : ¬((false : Bool) = true))]
    dsimp only
    rw [if_neg h3, if_neg h4, if_neg h5, h2]
    rw [if_neg (by decide : ¬((false : Bool) = true))]
  constructor
  · intro e he
    rw [htail]
    rcases h6 with h6 | ⟨e2, h6⟩ <;>
      simp [PdfProcessor.text_ocr_stage, h6, he]
  · intro he
    rw [htail]
    rcases h6 with h6 | ⟨e2, h6⟩ <;>
      simp [PdfProcessor.text_ocr_stage, h6, he]

/-- C5 amended, witness: a raising OCR strategy propagates as a reported
failure. -/
theorem C5_amended_witness :
    PdfProcessor.process_pdf "rw_zant" ⟨false, .ok [], .ok [], .ok [], .error "boom"⟩ =
      .error ("Failed to extract data from PDF: " ++ "boom") :=
  (C5_amended "rw_zant" ⟨false, .ok [], .ok [], .ok [], .error "boom"⟩
    rfl rfl (by decide) (by decide) (by decide) (Or.inl rfl)).1 "boom" rfl

/-- C6 counterexample: the RW Zant table-row parser rejects a row whose
description and cost are valid but whose identifier is present and invalid,
instead of keeping it under the absent sentinel as the Kruse & Sons parser
does — the claimed policy does not hold for every vendor parser. -/
theorem C6_counterexample :
    RWZant.parse_table_row ["ABC123", "CHICKEN BREAST", "$5.00"] = none ∧
    BaseParser.clean_cost "$5.00" = some "$5.00" ∧
    BaseParser.is_valid_description "CHICKEN BREAST" = true ∧
    KruseSons.parse_table_row ["ABC", "CHICKEN BREAST", "1.85"] =
      some ⟨"N/A", "CHICKEN BREAST", "$1.85/LB"⟩ := by
  refine ⟨?_, ?_, ?_, ?_⟩ <;> decide

/-- C6 amended: the Kruse & Sons table-row parser replaces a
present-but-invalid identifier with the absent sentinel and still returns
the row when description and cost validate; the RW Zant table-row parser
rejects such a row (see the counterexample). -/
theorem C6_amended (rid desc price cost : String)
    (h1 : pyStrip rid ≠ "")
    (h2 : (KruseSons.extract_product_id (pyStrip rid)).1 = none)
    (h3 : startsWithStr (pyStrip desc) "**" = false)
    (h4 : (pyStrip price).data.any Char.isDigit = true)
    (h5 : KruseSons.is_valid_description (pyStrip desc) = true)
    (h6 : KruseSons.clean_cost (pyStrip price) = some cost) :
    KruseSons.parse_table_row [rid, desc, price] = some ⟨"N/A", pyStrip desc, cost⟩ := by
  have hpne : pyStrip price ≠ "" := by
    intro hc
    rw [hc] at h4
    exact absurd h4 (by decide)
  have hdne : pyStrip desc ≠ "" := by
    intro hc
    rw [hc] at h5
    exact absurd h5 (by decide)
  unfold KruseSons.parse_table_row
  rw [if_neg (by simp : ¬(([rid, desc, price] : List String).length < 3))]
  dsimp only
  have hmap : List.map pyStrip [rid, desc, price] = [pyStrip rid, pyStrip desc, pyStrip price] := rfl
  rw [hmap]
  have hg1 : ([pyStrip rid, pyStrip desc, pyStrip price].getD 1 "") = pyStrip desc := rfl
  have hg2 : ([pyStrip rid, pyStrip desc, pyStrip price].getLastD "") = pyStrip price := rfl
  have hg0 : ([pyStrip rid, pyStrip desc, pyStrip price].headD "") = pyStrip rid := rfl
  rw [hg1, hg2, hg0]
  rw [h3]
  rw [if_neg (by decide : ¬((false : Bool) = true))]
  rw [h4]
  rw [if_neg (by simp [hpne] : ¬((decide (pyStrip price = "") || !true) = true))]
  rw [h5]
  rw [if_neg (by simp [hdne] : ¬((decide (pyStrip desc = "") || !true) = true))]
  rw [h6]
  rw [if_neg h1]
  rcases hE : KruseSons.extract_product_id (pyStrip rid) with ⟨o, rem⟩
  rw [hE] at h2
  simp only at h2
  subst h2
  rfl

/-- C6 amended, witness at a concrete Kruse & Sons row with an invalid
identifier. -/
theorem C6_amended_witness :
    KruseSons.parse_table_row ["ABC", "CHICKEN BREAST", "1.85"] =
      some ⟨"N/A", pyStrip "CHICKEN BREAST", "$1.85/LB"⟩ :=
  C6_amended "ABC" "CHICKEN BREAST" "1.85" "$1.85/LB" (by decide) (by decide)
    (by decide) (by decide) (by decide) (by decide)

/-- C9, witness at the concrete extracted identifier "11" and catalog entry
K002011-01. -/
theorem C9_suffix_extension_witness :
    AiMatcher.match_product_by_id ⟨"11", "apple"⟩ [⟨"K002011-01", "dd"⟩]
      ((8 : Rat) / 10) true true (.ok "") =
      .ok ⟨.str "K002011-01", .num 1,
        .str ("ID match: " ++ "11" ++ " -> " ++ "K002011-01" ++ " (normalized: 11)"),
        .str "dd"⟩ :=
  C9_suffix_extension ⟨"11", "apple"⟩ ⟨"K002011-01", "dd"⟩ ((8 : Rat) / 10) true true
    (.ok "") (by decide) (by decide)

end Pricelist
